import Mathlib

/-!
# Verification of the MSRC CVRF wrapper's aggregation logic

A shallow embedding of `cvrf_client.py`. JSON objects read with `.get`
defaults are modelled with `Option` fields; Python floats carrying CVSS
scores are modelled with `ℚ` (the program only stores and compares them);
the ordered Python dict of classification counts is modelled as an
association list `List (String × Nat)` in insertion order.
-/

namespace CvrfClient

/-- `THREAT_TYPE_VULN` from the source. -/
def THREAT_TYPE_VULN : Int := 0

/-- `THREAT_TYPE_EXPLOIT` from the source. -/
def THREAT_TYPE_EXPLOIT : Int := 1

/-- `VULN_CLASSIFICATIONS`, the fixed label list, in source order. -/
def VULN_CLASSIFICATIONS : List String :=
  ["Elevation of Privilege",
   "Security Feature Bypass",
   "Remote Code Execution",
   "Information Disclosure",
   "Denial of Service",
   "Spoofing",
   "Edge - Chromium"]

/-- One element of a vulnerability's `Threats` list. `ttype` is the JSON
`Type` field (`t.get('Type')`: `none` when absent); `description` is the
flattened `Description.Value` (`none` when either level is absent);
`productID` is the `ProductID` list (`none` when absent). -/
structure Threat where
  ttype : Option Int
  description : Option String
  productID : Option (List String)
deriving DecidableEq

/-- One element of `CVSSScoreSets`; `baseScore` is the optional JSON
`BaseScore` field (the source reads it with `s.get('BaseScore', 0)`). -/
structure ScoreSet where
  baseScore : Option ℚ
deriving DecidableEq

/-- One element of the bulletin's `Vulnerability` list. `title` is the
flattened `Title.Value`. -/
structure Vuln where
  cve : Option String
  title : Option String
  threats : Option (List Threat)
  scoreSets : Option (List ScoreSet)
deriving DecidableEq

/-- The parsed bulletin document: the flattened `DocumentTitle.Value` and
the `Vulnerability` list. -/
structure CvrfDoc where
  documentTitle : Option String
  vulnerability : Option (List Vuln)
deriving DecidableEq

/-- `self.title = data.get('DocumentTitle', {}).get('Value', '[no title]')`. -/
def titleOf (d : CvrfDoc) : String := d.documentTitle.getD "[no title]"

/-- `self.vulns = data.get('Vulnerability', [])`. -/
def vulnsOf (d : CvrfDoc) : List Vuln := d.vulnerability.getD []

/-- `t.get('Description', {}).get('Value', '')`. -/
def descOf (t : Threat) : String := t.description.getD ""

/-- `t.get('ProductID', [])`. -/
def productsOf (t : Threat) : List String := t.productID.getD []

/-- `v.get('Threats', [])`. -/
def threatsOf (v : Vuln) : List Threat := v.threats.getD []

/-- `v.get('CVSSScoreSets', [])`. -/
def scoreSetsOf (v : Vuln) : List ScoreSet := v.scoreSets.getD []

/-- Does `needle` occur at the head of `hay`? (helper for Python's `in`). -/
def leadsWith : List Char → List Char → Bool
  | [], _ => true
  | _ :: _, [] => false
  | a :: as, b :: bs => a == b && leadsWith as bs

/-- Substring occurrence on character lists (helper for Python's `in`). -/
def hasSubL (needle : List Char) : List Char → Bool
  | [] => needle.isEmpty
  | b :: bs => leadsWith needle (b :: bs) || hasSubL needle bs

/-- Python's case-sensitive substring test `needle in hay`. -/
def strContains (hay needle : String) : Bool := hasSubL needle.data hay.data

/-- Python's `str.lower()` restricted to ASCII letters, which is all the
program's needles use: lower-case every character. -/
def strLower (s : String) : String := String.mk (s.data.map Char.toLower)

/-- Python `set.add` on the insertion-ordered scratch set `seen`, modelled
as a duplicate-free list. -/
def setInsert (s : List String) (x : String) : List String :=
  if x ∈ s then s else s ++ [x]

/-- One iteration of the inner `for t in v.get('Threats', [])` loop of
`classification_counts`: skip non-`Vulnerability` threat entries, handle
the `Edge - Chromium` sentinel (credited only when `'11655'` is among the
product IDs), otherwise credit descriptions that are keys of the counts
dict (`keys`). -/
def seenStep (keys : List String) (s : List String) (t : Threat) : List String :=
  if t.ttype ≠ some THREAT_TYPE_VULN then s
  else if descOf t = "Edge - Chromium" then
    if "11655" ∈ productsOf t then setInsert s "Edge - Chromium" else s
  else if descOf t ∈ keys then setInsert s (descOf t)
  else s

/-- The scratch set `seen` accumulated over one vulnerability's threats. -/
def seenOf (keys : List String) (threats : List Threat) : List String :=
  threats.foldl (seenStep keys) []

/-- `counts[label] += 1` on the association-list model of the dict. -/
def bump (c : List (String × Nat)) (label : String) : List (String × Nat) :=
  c.map (fun p => if p.1 = label then (p.1, p.2 + 1) else p)

/-- `for label in seen: counts[label] += 1`. -/
def addSeen (c : List (String × Nat)) (seen : List String) : List (String × Nat) :=
  seen.foldl bump c

/-- One iteration of the outer `for v in self.vulns` loop of
`classification_counts`. -/
def countStep (c : List (String × Nat)) (v : Vuln) : List (String × Nat) :=
  addSeen c (seenOf (c.map Prod.fst) (threatsOf v))

/-- `counts = {label: 0 for label in VULN_CLASSIFICATIONS}`. -/
def initCounts : List (String × Nat) :=
  VULN_CLASSIFICATIONS.map (fun label => (label, 0))

/-- `MSRCStats.classification_counts`, as the (ordered) label-to-count
mapping that the returned DataFrame is built from. -/
def classification_counts (vulns : List Vuln) : List (String × Nat) :=
  vulns.foldl countStep initCounts

/-- Count lookup in the association-list model of the counts dict. -/
def lookupC (label : String) : List (String × Nat) → Option Nat
  | [] => none
  | p :: rest => if p.1 = label then some p.2 else lookupC label rest

/-- The test of the `if` inside `exploited_in_wild`: an `Exploit`-type
threat whose description contains `'Exploited:Yes'` (case-sensitive). -/
def isWildThreat (t : Threat) : Bool :=
  t.ttype == some THREAT_TYPE_EXPLOIT && strContains (descOf t) "Exploited:Yes"

/-- `next((s.get('BaseScore', 0) for s in v.get('CVSSScoreSets', [])), 0)`:
the first score set's base score (0 when that set has none), 0 when the
sequence is empty. -/
def scoreOf (v : Vuln) : ℚ :=
  match scoreSetsOf v with
  | [] => 0
  | s :: _ => s.baseScore.getD 0

/-- A row of the `Exploited in Wild` sheet. -/
structure WildRow where
  cve : Option String
  score : ℚ
  title : Option String
deriving DecidableEq

/-- The row appended for a matching vulnerability in `exploited_in_wild`. -/
def wildRow (v : Vuln) : WildRow := ⟨v.cve, scoreOf v, v.title⟩

/-- `MSRCStats.exploited_in_wild`: at most one row per vulnerability, the
inner loop `break`s at the first matching threat entry. -/
def exploited_in_wild : List Vuln → List WildRow
  | [] => []
  | v :: vs =>
    if (threatsOf v).any isWildThreat then wildRow v :: exploited_in_wild vs
    else exploited_in_wild vs

/-- A row of the `High Severity` sheet. -/
structure HighRow where
  cve : Option String
  score : ℚ
  title : Option String
deriving DecidableEq

/-- The row appended for a passing vulnerability in `high_severity`. -/
def highRow (v : Vuln) : HighRow := ⟨v.cve, scoreOf v, v.title⟩

/-- `MSRCStats.high_severity(threshold)`: keep vulnerabilities whose first
score set's base score is at least the threshold. -/
def high_severity : List Vuln → ℚ → List HighRow
  | [], _ => []
  | v :: vs, th =>
    if scoreOf v ≥ th then highRow v :: high_severity vs th
    else high_severity vs th

/-- `high_severity` at its Python default argument `threshold=8.0`. -/
def highSeverityDefault (vulns : List Vuln) : List HighRow :=
  high_severity vulns 8

/-- The test of the `if` inside `likely_exploited`: an `Exploit`-type
threat whose lower-cased description contains
`'exploitation more likely'`. -/
def isLikelyThreat (t : Threat) : Bool :=
  t.ttype == some THREAT_TYPE_EXPLOIT &&
    strContains (strLower (descOf t)) "exploitation more likely"

/-- A row of the `Likely Exploited` sheet. -/
structure LikelyRow where
  cve : Option String
  title : Option String
deriving DecidableEq

/-- The row appended for a matching vulnerability in `likely_exploited`. -/
def likelyRow (v : Vuln) : LikelyRow := ⟨v.cve, v.title⟩

/-- `MSRCStats.likely_exploited`: at most one row per vulnerability, the
inner loop `break`s at the first matching threat entry. -/
def likely_exploited : List Vuln → List LikelyRow
  | [] => []
  | v :: vs =>
    if (threatsOf v).any isLikelyThreat then likelyRow v :: likely_exploited vs
    else likely_exploited vs

/-- The sheet names written by `main`, in the order of the `to_excel`
calls. -/
def sheetNames : List String :=
  ["Summary", "By Classification", "Exploited in Wild",
   "High Severity (≥8.0)", "Likely Exploited"]

/-- The declarative per-threat crediting test used to characterise
`classification_counts`: a `Vulnerability`-type entry credits label `L`
when its description is the `Edge - Chromium` sentinel and `L` is that
sentinel with `'11655'` among the product IDs, or when its description
equals `L` and `L` is one of the dict's keys. -/
def threatMatchesK (keys : List String) (t : Threat) (L : String) : Bool :=
  t.ttype == some THREAT_TYPE_VULN &&
    (if descOf t = "Edge - Chromium" then
      L == "Edge - Chromium" && (productsOf t).contains "11655"
     else descOf t == L && keys.contains L)

/-- Does vulnerability `v` credit label `L` (with the fixed label list as
dict keys)? -/
def creditsLabel (v : Vuln) (L : String) : Bool :=
  (threatsOf v).any (fun t => threatMatchesK VULN_CLASSIFICATIONS t L)

/-- Modelled from the spec: "Score is the first CVSS base score found in
the vulnerability's score-set sequence, or 0 if none" — the first
`BaseScore` present anywhere in the sequence, scanning past score sets
that lack one. Named for comparison with the source's `scoreOf`. -/
def specFirstFoundScore : List ScoreSet → ℚ
  | [] => 0
  | s :: rest =>
    match s.baseScore with
    | some x => x
    | none => specFirstFoundScore rest

/-- The sheet names claimed by the spec's §4.7. -/
def specSheetNames : List String :=
  ["Summary", "By Classification", "Exploited in Wild",
   "High Severity", "Likely Exploited"]

/-! ## Helper lemmas about the counts association list -/

theorem bump_cons (k : String) (n : Nat) (rest : List (String × Nat)) (M : String) :
    bump ((k, n) :: rest) M
      = (if k = M then (k, n + 1) else (k, n)) :: bump rest M := rfl

theorem lookupC_cons (k : String) (n : Nat) (rest : List (String × Nat)) (L : String) :
    lookupC L ((k, n) :: rest) = if k = L then some n else lookupC L rest := rfl

theorem lookupC_bump_eq (c : List (String × Nat)) (M : String) :
    lookupC M (bump c M) = (lookupC M c).map (· + 1) := by
  induction c with
  | nil => rfl
  | cons q rest ih =>
    obtain ⟨k, n⟩ := q
    rw [bump_cons]
    by_cases hkM : k = M
    · rw [if_pos hkM, lookupC_cons, lookupC_cons, if_pos hkM, if_pos hkM]
      rfl
    · rw [if_neg hkM, lookupC_cons, lookupC_cons, if_neg hkM, if_neg hkM, ih]

theorem lookupC_bump_ne (c : List (String × Nat)) {L M : String} (h : ¬ L = M) :
    lookupC L (bump c M) = lookupC L c := by
  induction c with
  | nil => rfl
  | cons q rest ih =>
    obtain ⟨k, n⟩ := q
    rw [bump_cons]
    by_cases hkM : k = M
    · rw [if_pos hkM]
      have hkL : ¬ k = L := fun hh => h (by rw [← hh, hkM])
      rw [lookupC_cons, lookupC_cons, if_neg hkL, if_neg hkL, ih]
    · rw [if_neg hkM, lookupC_cons, lookupC_cons, ih]

theorem lookupC_addSeen (s : List String) (c : List (String × Nat)) (L : String) :
    lookupC L (addSeen c s) = (lookupC L c).map (· + s.count L) := by
  induction s generalizing c with
  | nil => cases h : lookupC L c <;> simp [addSeen, h]
  | cons a s ih =>
    have hstep : addSeen c (a :: s) = addSeen (bump c a) s := rfl
    rw [hstep, ih]
    by_cases hLa : L = a
    · subst hLa
      rw [lookupC_bump_eq]
      cases hc : lookupC L c <;> simp [List.count_cons, hc] <;> omega
    · rw [lookupC_bump_ne c hLa]
      have haL : ¬ a = L := fun hh => hLa hh.symm
      cases hc : lookupC L c <;> simp [List.count_cons, hc, haL]

theorem keys_bump (c : List (String × Nat)) (M : String) :
    (bump c M).map Prod.fst = c.map Prod.fst := by
  induction c with
  | nil => rfl
  | cons q rest ih =>
    by_cases h : q.1 = M <;> simp [bump, h] <;> simpa [bump] using ih

theorem keys_addSeen (s : List String) (c : List (String × Nat)) :
    (addSeen c s).map Prod.fst = c.map Prod.fst := by
  induction s generalizing c with
  | nil => rfl
  | cons a s ih =>
    have hstep : addSeen c (a :: s) = addSeen (bump c a) s := rfl
    rw [hstep, ih, keys_bump]

theorem keys_countStep (c : List (String × Nat)) (v : Vuln) :
    (countStep c v).map Prod.fst = c.map Prod.fst :=
  keys_addSeen _ _

theorem keys_foldl (vulns : List Vuln) :
    ∀ c : List (String × Nat),
      ((vulns.foldl countStep c).map Prod.fst) = c.map Prod.fst := by
  induction vulns with
  | nil => intro c; rfl
  | cons v vs ih =>
    intro c
    rw [List.foldl_cons, ih (countStep c v), keys_countStep]

theorem keys_initCounts : initCounts.map Prod.fst = VULN_CLASSIFICATIONS := rfl

theorem keys_counts (vulns : List Vuln) :
    (classification_counts vulns).map Prod.fst = VULN_CLASSIFICATIONS := by
  rw [classification_counts, keys_foldl, keys_initCounts]

theorem lookupC_map_zero (labels : List String) (L : String) :
    lookupC L (labels.map fun l => (l, 0)) = if L ∈ labels then some 0 else none := by
  induction labels with
  | nil => simp [lookupC]
  | cons a ls ih =>
    by_cases h : a = L
    · subst h; simp [lookupC]
    · have hLa : ¬ L = a := fun hh => h hh.symm
      simp [lookupC, h, ih, hLa]

theorem lookupC_of_mem {c : List (String × Nat)} {p : String × Nat}
    (hnd : (c.map Prod.fst).Nodup) (hp : p ∈ c) : lookupC p.1 c = some p.2 := by
  induction c with
  | nil => cases hp
  | cons q rest ih =>
    rw [List.map_cons, List.nodup_cons] at hnd
    rcases List.mem_cons.mp hp with h | h
    · subst h; simp [lookupC]
    · have hp1 : p.1 ∈ rest.map Prod.fst := List.mem_map_of_mem Prod.fst h
      have hne : ¬ q.1 = p.1 := fun hh => hnd.1 (hh ▸ hp1)
      rw [lookupC, if_neg hne]
      exact ih hnd.2 h

/-! ## Helper lemmas about the per-vulnerability scratch set -/

theorem mem_setInsert {s : List String} {x y : String} :
    y ∈ setInsert s x ↔ y ∈ s ∨ y = x := by
  unfold setInsert
  split
  · constructor
    · exact Or.inl
    · rintro (h | rfl)
      · exact h
      · assumption
  · simp [List.mem_append]

theorem nodup_setInsert {s : List String} (x : String) (h : s.Nodup) :
    (setInsert s x).Nodup := by
  unfold setInsert
  split
  · exact h
  · simp [List.nodup_append, h, List.disjoint_singleton]
    assumption

theorem nodup_seenStep (keys : List String) (s : List String) (t : Threat)
    (h : s.Nodup) : (seenStep keys s t).Nodup := by
  unfold seenStep
  split_ifs <;> first
    | exact h
    | exact nodup_setInsert _ h

theorem nodup_seenOf (keys : List String) (threats : List Threat) :
    (seenOf keys threats).Nodup := by
  have hgen : ∀ s : List String, s.Nodup → (threats.foldl (seenStep keys) s).Nodup := by
    induction threats with
    | nil => intro s hs; exact hs
    | cons t ts ih =>
      intro s hs
      exact ih _ (nodup_seenStep keys s t hs)
  exact hgen [] List.nodup_nil

theorem mem_seenStep {keys : List String} {s : List String} {t : Threat} {L : String} :
    L ∈ seenStep keys s t ↔ L ∈ s ∨ threatMatchesK keys t L = true := by
  unfold seenStep threatMatchesK
  by_cases h1 : t.ttype = some THREAT_TYPE_VULN
  · rw [if_neg (by simp [h1])]
    by_cases h2 : descOf t = "Edge - Chromium"
    · rw [if_pos h2, if_pos h2]
      by_cases h3 : "11655" ∈ productsOf t
      · rw [if_pos h3]
        rw [mem_setInsert]
        simp [h1, h3]
      · rw [if_neg h3]
        simp [h3]
    · rw [if_neg h2, if_neg h2]
      by_cases h4 : descOf t ∈ keys
      · rw [if_pos h4]
        rw [mem_setInsert]
        constructor
        · rintro (h | rfl)
          · exact Or.inl h
          · exact Or.inr (by simp [h1, h4])
        · rintro (h | h)
          · exact Or.inl h
          · refine Or.inr ?_
            simp only [Bool.and_eq_true, beq_iff_eq] at h
            exact h.2.1.symm
      · rw [if_neg h4]
        constructor
        · exact Or.inl
        · rintro (h | h)
          · exact h
          · exfalso
            simp only [Bool.and_eq_true, beq_iff_eq] at h
            have hLk : L ∈ keys := by simpa using h.2.2
            exact h4 (h.2.1 ▸ hLk)
  · rw [if_pos (by simp [h1])]
    simp [h1]

theorem mem_seenOf {keys : List String} {threats : List Threat} {L : String} :
    L ∈ seenOf keys threats ↔ (threats.any fun t => threatMatchesK keys t L) = true := by
  have hgen : ∀ s : List String,
      (L ∈ threats.foldl (seenStep keys) s ↔
        L ∈ s ∨ (threats.any fun t => threatMatchesK keys t L) = true) := by
    induction threats with
    | nil => intro s; simp
    | cons t ts ih =>
      intro s
      rw [List.foldl_cons, ih (seenStep keys s t)]
      rw [List.any_cons]
      constructor
      · rintro (h | h)
        · rcases mem_seenStep.mp h with h' | h'
          · exact Or.inl h'
          · exact Or.inr (by simp [h'])
        · exact Or.inr (by simp [h])
      · rintro (h | h)
        · exact Or.inl (mem_seenStep.mpr (Or.inl h))
        · rcases Bool.or_eq_true _ _ |>.mp h with h' | h'
          · exact Or.inl (mem_seenStep.mpr (Or.inr h'))
          · exact Or.inr h'
  have := hgen []
  simpa [seenOf] using this

theorem count_seenOf (keys : List String) (threats : List Threat) (L : String) :
    (seenOf keys threats).count L
      = if (threats.any fun t => threatMatchesK keys t L) = true then 1 else 0 := by
  rw [List.count_eq_of_nodup (nodup_seenOf keys threats)]
  by_cases h : (threats.any fun t => threatMatchesK keys t L) = true
  · rw [if_pos h, if_pos (mem_seenOf.mpr h)]
  · rw [if_neg h, if_neg (fun hm => h (mem_seenOf.mp hm))]

/-! ## The central counting characterisation -/

theorem lookupC_foldl (vulns : List Vuln) :
    ∀ c : List (String × Nat), c.map Prod.fst = VULN_CLASSIFICATIONS →
      ∀ L : String,
        lookupC L (vulns.foldl countStep c)
          = (lookupC L c).map (· + vulns.countP fun v => creditsLabel v L) := by
  induction vulns with
  | nil =>
    intro c _ L
    cases h : lookupC L c <;> simp [h]
  | cons v vs ih =>
    intro c hk L
    rw [List.foldl_cons, ih (countStep c v) (by rw [keys_countStep, hk]) L]
    have hstep : lookupC L (countStep c v)
        = (lookupC L c).map (· + (seenOf VULN_CLASSIFICATIONS (threatsOf v)).count L) := by
      unfold countStep
      rw [hk, lookupC_addSeen]
    rw [hstep, count_seenOf]
    cases hc : lookupC L c <;>
      simp [List.countP_cons, creditsLabel] <;>
        split_ifs <;> simp_all <;> omega

theorem lookupC_counts (vulns : List Vuln) (L : String)
    (h : L ∈ VULN_CLASSIFICATIONS) :
    lookupC L (classification_counts vulns)
      = some (vulns.countP fun v => creditsLabel v L) := by
  rw [classification_counts, lookupC_foldl vulns initCounts keys_initCounts L]
  have h0 : lookupC L initCounts = some 0 := by
    rw [initCounts, lookupC_map_zero, if_pos h]
  rw [h0]
  simp

/-! ## Characterisations of the three extractor passes -/

theorem exploited_eq_filter (vulns : List Vuln) :
    exploited_in_wild vulns
      = (vulns.filter fun v => (threatsOf v).any isWildThreat).map wildRow := by
  induction vulns with
  | nil => rfl
  | cons v vs ih =>
    by_cases h : (threatsOf v).any isWildThreat = true
    · simp [exploited_in_wild, List.filter_cons, h, ih]
    · simp [exploited_in_wild, List.filter_cons, h, ih]

theorem likely_eq_filter (vulns : List Vuln) :
    likely_exploited vulns
      = (vulns.filter fun v => (threatsOf v).any isLikelyThreat).map likelyRow := by
  induction vulns with
  | nil => rfl
  | cons v vs ih =>
    by_cases h : (threatsOf v).any isLikelyThreat = true
    · simp [likely_exploited, List.filter_cons, h, ih]
    · simp [likely_exploited, List.filter_cons, h, ih]

theorem high_eq_filter (vulns : List Vuln) (th : ℚ) :
    high_severity vulns th
      = (vulns.filter fun v => decide (th ≤ scoreOf v)).map highRow := by
  induction vulns with
  | nil => rfl
  | cons v vs ih =>
    by_cases h : th ≤ scoreOf v
    · simp [high_severity, List.filter_cons, h, ih, ge_iff_le]
    · simp [high_severity, List.filter_cons, h, ih, ge_iff_le]

theorem threatMatchesK_edge (t : Threat) :
    threatMatchesK VULN_CLASSIFICATIONS t "Edge - Chromium"
      = (t.ttype == some THREAT_TYPE_VULN &&
          (descOf t == "Edge - Chromium" && (productsOf t).contains "11655")) := by
  unfold threatMatchesK
  by_cases h : descOf t = "Edge - Chromium"
  · rw [if_pos h]
    simp [h]
  · rw [if_neg h]
    have hb : (descOf t == "Edge - Chromium") = false := beq_eq_false_iff_ne.mpr h
    simp [hb]

/-! ## Concrete inputs used by witnesses and counterexamples -/

/-- A vulnerability with two `Vulnerability`-type threat entries both labelled
`Spoofing`. -/
def vSpoofTwice : Vuln :=
  ⟨some "CVE-2024-0001", some "Demo",
   some [⟨some 0, some "Spoofing", none⟩, ⟨some 0, some "Spoofing", none⟩], none⟩

/-- A vulnerability whose first score set lacks a `BaseScore` while its second one
carries 9, and which is exploited in the wild. -/
def vScanScore : Vuln :=
  ⟨some "CVE-2024-0002", some "Scan",
   some [⟨some 1, some "Exploited:Yes", none⟩],
   some [⟨none⟩, ⟨some 9⟩]⟩

/-- A vulnerability record with every optional field absent. -/
def emptyVuln : Vuln := ⟨none, none, none, none⟩

/-! ## The claims -/

/-- C1: for every label of the fixed list, the classification counter's count equals the
number of vulnerabilities that have at least one matching `Vulnerability`-type threat
entry for that label; hence a vulnerability with several threat entries naming the same
label adds exactly 1 (not more) to that label's count. -/
theorem classification_label_once (vulns : List Vuln) (L : String)
    (h : L ∈ VULN_CLASSIFICATIONS) :
    lookupC L (classification_counts vulns)
      = some (vulns.countP fun v => creditsLabel v L) :=
  lookupC_counts vulns L h

/-- Witness for C1: a vulnerability with two `Spoofing` threat entries contributes
exactly 1 to the `Spoofing` count. -/
theorem classification_label_once_witness :
    "Spoofing" ∈ VULN_CLASSIFICATIONS ∧
      lookupC "Spoofing" (classification_counts [vSpoofTwice]) = some 1 :=
  ⟨by decide,
   (classification_label_once [vSpoofTwice] "Spoofing" (by decide)).trans (by decide)⟩

/-- C2: the `Edge - Chromium` count equals the number of vulnerabilities with a
`Vulnerability`-type threat entry whose description is `Edge - Chromium` and whose
product-ID list contains the sentinel `11655`; an entry with that description but
without `11655` contributes nothing. -/
theorem edge_chromium_sentinel (vulns : List Vuln) :
    lookupC "Edge - Chromium" (classification_counts vulns)
      = some (vulns.countP fun v =>
          (threatsOf v).any fun t =>
            t.ttype == some THREAT_TYPE_VULN &&
              (descOf t == "Edge - Chromium" && (productsOf t).contains "11655")) := by
  rw [lookupC_counts vulns "Edge - Chromium" (by decide)]
  have hfun : (fun t => threatMatchesK VULN_CLASSIFICATIONS t "Edge - Chromium")
      = fun t =>
          t.ttype == some THREAT_TYPE_VULN &&
            (descOf t == "Edge - Chromium" && (productsOf t).contains "11655") :=
    funext threatMatchesK_edge
  simp only [creditsLabel, hfun]

/-- C3: for every input the classification counter's output has exactly the 7 fixed
labels as its keys, each exactly once, in the fixed glossary order. -/
theorem classification_counts_fixed_labels (vulns : List Vuln) :
    (classification_counts vulns).map Prod.fst = VULN_CLASSIFICATIONS ∧
      VULN_CLASSIFICATIONS.Nodup ∧ VULN_CLASSIFICATIONS.length = 7 :=
  ⟨keys_counts vulns, by decide, by decide⟩

/-- C4: the exploited-in-wild extractor emits one row exactly for the vulnerabilities
with some `Exploit`-type threat entry whose description contains `Exploited:Yes`
(at most one row per vulnerability, in input order), and the substring comparison is
case-sensitive: `Exploited:yes` does not match, a non-`Exploit` entry does not match. -/
theorem exploited_in_wild_spec (vulns : List Vuln) :
    exploited_in_wild vulns
        = (vulns.filter fun v => (threatsOf v).any isWildThreat).map wildRow ∧
      isWildThreat ⟨some 1, some "Exploited:yes", none⟩ = false ∧
      isWildThreat ⟨some 1, some "Exploited:Yes ; Version: 1.0", none⟩ = true ∧
      isWildThreat ⟨some 0, some "Exploited:Yes", none⟩ = false :=
  ⟨exploited_eq_filter vulns, by decide, by decide, by decide⟩

/-- C5: the likely-exploited extractor emits one row exactly for the vulnerabilities
with some `Exploit`-type threat entry whose lower-cased description contains
`exploitation more likely` (at most one row per vulnerability), and the comparison is
case-insensitive: the all-caps description matches, a non-`Exploit` entry does not. -/
theorem likely_exploited_spec (vulns : List Vuln) :
    likely_exploited vulns
        = (vulns.filter fun v => (threatsOf v).any isLikelyThreat).map likelyRow ∧
      isLikelyThreat ⟨some 1, some "EXPLOITATION MORE LIKELY", none⟩ = true ∧
      isLikelyThreat ⟨some 1, some "Exploitation Less Likely", none⟩ = false ∧
      isLikelyThreat ⟨some 0, some "Exploitation More Likely", none⟩ = false :=
  ⟨likely_eq_filter vulns, by decide, by decide, by decide⟩

/-- C6: the high-severity filter keeps, in input order, exactly the vulnerabilities
whose score (the first score set's base score, 0 when there is none) is at least the
threshold; the Python default threshold is 8.0, and a vulnerability without score sets
has score 0 and is excluded at the default threshold. -/
theorem high_severity_spec (vulns : List Vuln) (th : ℚ) :
    high_severity vulns th
        = (vulns.filter fun v => decide (th ≤ scoreOf v)).map highRow ∧
      highSeverityDefault vulns = high_severity vulns 8 ∧
      scoreOf ⟨none, none, none, some []⟩ = 0 ∧
      scoreOf ⟨none, none, none, none⟩ = 0 ∧
      scoreOf ⟨none, none, none, some [⟨some 9⟩, ⟨some 2⟩]⟩ = 9 ∧
      highSeverityDefault [⟨none, none, none, none⟩] = [] :=
  ⟨high_eq_filter vulns th, rfl, rfl, rfl, rfl, by decide⟩

/-- C7 as stated is false: for a vulnerability whose first score set has no base score
but whose second carries 9, the emitted row's Score is 0, while the first base score
found in the score-set sequence is 9. -/
theorem exploited_score_counterexample :
    exploited_in_wild [vScanScore] = [⟨some "CVE-2024-0002", 0, some "Scan"⟩] ∧
      specFirstFoundScore (scoreSetsOf vScanScore) = 9 ∧ (0 : ℚ) ≠ 9 :=
  ⟨by decide, rfl, by decide⟩

/-- C7 (amended): the Score field of each emitted exploited-in-wild row equals the base
score of the first score set of the corresponding vulnerability (0 when that score set
has no base score, or when the score-set sequence is empty). -/
theorem exploited_scores_first_set (vulns : List Vuln) :
    (exploited_in_wild vulns).map WildRow.score
      = (vulns.filter fun v => (threatsOf v).any isWildThreat).map scoreOf := by
  rw [exploited_eq_filter, List.map_map]
  rfl

/-- C8 as stated is false: there are 5 sheets, but the fourth is named
`High Severity (≥8.0)`, not `High Severity`. -/
theorem sheet_names_counterexample :
    sheetNames ≠ specSheetNames ∧ "High Severity" ∉ sheetNames ∧
      sheetNames[3]? = some "High Severity (≥8.0)" := by
  decide

/-- C8 (amended): the report writer produces exactly 5 sheets, named `Summary`,
`By Classification`, `Exploited in Wild`, `High Severity (≥8.0)` and
`Likely Exploited`, in that order. -/
theorem sheet_names_spec :
    sheetNames = ["Summary", "By Classification", "Exploited in Wild",
        "High Severity (≥8.0)", "Likely Exploited"] ∧
      sheetNames.length = 5 ∧ sheetNames.Nodup := by
  decide

/-- C9: missing fields are defaulted, never failed on: an absent document title yields
`[no title]`, an absent vulnerability list yields the empty sequence, and every
aggregator succeeds on a vulnerability record with all optional fields absent,
substituting the documented defaults (score 0, nothing credited, no rows except the
pass-through row with score 0 at threshold 0). -/
theorem defaulting_spec (ovs : Option (List Vuln)) (ot : Option String) :
    titleOf ⟨none, ovs⟩ = "[no title]" ∧
      vulnsOf ⟨ot, none⟩ = [] ∧
      titleOf ⟨some "June Release", ovs⟩ = "June Release" ∧
      classification_counts [emptyVuln] = initCounts ∧
      exploited_in_wild [emptyVuln] = [] ∧
      likely_exploited [emptyVuln] = [] ∧
      highSeverityDefault [emptyVuln] = [] ∧
      high_severity [emptyVuln] 0 = [⟨none, 0, none⟩] ∧
      scoreOf emptyVuln = 0 :=
  ⟨rfl, rfl, rfl, rfl, rfl, rfl, by decide, by decide, rfl⟩

/-- C10: every count in the classification counter's output is at most the number of
input vulnerabilities. -/
theorem classification_counts_le_length (vulns : List Vuln) (p : String × Nat)
    (hp : p ∈ classification_counts vulns) : p.2 ≤ vulns.length := by
  have hk := keys_counts vulns
  have hnd : ((classification_counts vulns).map Prod.fst).Nodup := by
    rw [hk]; decide
  have hmem : p.1 ∈ VULN_CLASSIFICATIONS := by
    rw [← hk]; exact List.mem_map_of_mem Prod.fst hp
  have hl := lookupC_of_mem hnd hp
  rw [lookupC_counts vulns p.1 hmem] at hl
  have hv := Option.some.inj hl
  rw [← hv]
  exact List.countP_le_length _

/-- Witness for C10: on a one-element input, the `Spoofing` entry of the output is
`("Spoofing", 1)` and its count is bounded by the input length 1. -/
theorem classification_counts_le_length_witness :
    ("Spoofing", 1) ∈ classification_counts [vSpoofTwice] ∧
      1 ≤ [vSpoofTwice].length :=
  ⟨by decide, classification_counts_le_length [vSpoofTwice] ("Spoofing", 1) (by decide)⟩

end CvrfClient
